import Mathlib

set_option maxRecDepth 8000

/-!
Verification development for the anticycle replacement-cycling detection
engine (src/anticycle.py).  The event loop of `main` (lines 236-350) is
embedded shallowly: Python dicts become association lists, Python sets
become duplicate-free lists, the `Decimal` feerate arithmetic (28
significant digits, round-half-even) is modelled exactly on ℚ, and every
unguarded dict subscript that can raise is modelled by `Option.none`
(an uncaught exception leaving the loop).  RPC results are supplied as
fields of the events, since the loop consumes each response exactly once.
-/

/-- Transaction id (the 32-byte hash, abstracted to a number). -/
abbrev TxId := ℕ

/-- A UTXO is the pair (funding txid, output index), used as a map and set key. -/
abbrev Utxo := ℕ × ℕ

/-- The parts of a getrawtransaction result that the loop reads:
the hex body (its length drives the byte accounting, its text is what is
resubmitted) and the list of prevouts from vin. -/
structure RawTx where
  hex : String
  vin : List Utxo
deriving DecidableEq, Repr

/-- The parts of a getmempoolentry result the loop reads: the ancestor fee
total (entry.fees.ancestor, in BTC) and the ancestor size in vbytes.
Both are carried as the exact rational value of the JSON number. -/
structure MempoolEntry where
  ancestorFees : ℚ
  ancestorSize : ℚ
deriving DecidableEq, Repr

/-- Lookup in an association list, mirroring a Python dict read. -/
def lookupA {α β : Type} [DecidableEq α] : List (α × β) → α → Option β
  | [], _ => none
  | (k, v) :: rest, a => if k = a then some v else lookupA rest a

/-- Dict write d[k] = v: replace the first binding of k, else append. -/
def insertA {α β : Type} [DecidableEq α] : List (α × β) → α → β → List (α × β)
  | [], k, v => [(k, v)]
  | (k0, v0) :: rest, k, v =>
    if k0 = k then (k, v) :: rest else (k0, v0) :: insertA rest k v

/-- Dict delete del d[k]: drop the first binding of k. -/
def eraseA {α β : Type} [DecidableEq α] : List (α × β) → α → List (α × β)
  | [], _ => []
  | (k0, v0) :: rest, k =>
    if k0 = k then rest else (k0, v0) :: eraseA rest k

/-- Python set.add: append the element unless already present. -/
def addSet {α : Type} [DecidableEq α] (s : List α) (x : α) : List α :=
  if x ∈ s then s else s ++ [x]

/-- Removal of one element from a set (the source guards the call with a
membership test, so removing an absent element just returns the set). -/
def removeSet {α : Type} [DecidableEq α] : List α → α → List α
  | [], _ => []
  | a :: rest, x => if a = x then rest else a :: removeSet rest x

/-- Number of base-10 digits of a natural number (1 for 0), via an explicit
fuel bound so the kernel can evaluate it. -/
def digCountFuel : ℕ → ℕ → ℕ
  | 0, _ => 1
  | fuel + 1, n => if n < 10 then 1 else digCountFuel fuel (n / 10) + 1

/-- Number of base-10 digits of a natural number. -/
def digCount (n : ℕ) : ℕ := digCountFuel (n + 1) n

/-- Floor of log10 of a positive rational: the unique k with 10^k ≤ q < 10^(k+1). -/
def qfloorLog10 (q : ℚ) : ℤ :=
  if 1 ≤ q then (digCount ⌊q⌋.toNat : ℤ) - 1
  else -(digCount (⌈q⁻¹⌉.toNat - 1) : ℤ)

/-- Round a rational to the nearest integer, ties to even
(the ROUND_HALF_EVEN mode of the default Decimal context). -/
def roundHalfEven (q : ℚ) : ℤ :=
  let f := ⌊q⌋
  let r := q - (f : ℚ)
  if r < 1 / 2 then f
  else if 1 / 2 < r then f + 1
  else if f % 2 = 0 then f else f + 1

/-- Value of a Decimal operation result rounded to prec significant digits,
half-even: the exact rounding the default Decimal context (prec = 28)
applies to a quotient.  Exactly representable values are unchanged. -/
def roundSig (prec : ℕ) (q : ℚ) : ℚ :=
  if q = 0 then 0
  else
    let a := |q|
    let k := qfloorLog10 a
    let c := roundHalfEven (a * (10 : ℚ) ^ ((prec : ℤ) - 1 - k))
    (if q < 0 then (-1 : ℚ) else 1) * (c : ℚ) * (10 : ℚ) ^ (k - ((prec : ℤ) - 1))

/-- The top-block test of lines 257-258:
tx_rate_btc_kvb = Decimal(entry.fees.ancestor) / entry.ancestorsize * 1000,
compared with >= against the current top-block rate.  The division is the
Decimal context operation (28 significant digits, half-even); the
subsequent multiplication by 1000 only shifts the exponent and is exact. -/
def new_top_block (fees size rate : ℚ) : Bool :=
  decide (roundSig 28 (fees / size) * 1000 ≥ rate)

/-- Modelled from the spec: the classifier rule of section 4.1, literally
entry_rate = ancestorfees * 1000 / ancestorsize compared on exact
rationals.  Kept separate from new_top_block for comparison. -/
def spec_is_top_block (fees size rate : ℚ) : Bool :=
  decide (fees * 1000 / size ≥ rate)

/-- CYCLE_THRESH constant of line 40. -/
def CYCLE_THRESH : ℤ := 1

/-- Serialized byte size of a cached transaction: len(hex) / 2, the float
division of lines 270, 280, 298 carried out exactly on ℚ. -/
def byte_size (tx : RawTx) : ℚ := (tx.hex.length : ℚ) / 2

/-- The mutable state of the event loop (lines 190-233). -/
structure EngineState where
  cycled_tx_cache : List (TxId × RawTx)
  cycled_tx_cache_size : ℚ
  cycled_input_set : List Utxo
  dummy_cache : List (TxId × RawTx)
  dummy_cache_size : ℚ
  utxo_cycled_count : List (Utxo × ℤ)
  utxo_cache : List (Utxo × TxId)
  utxos_being_doublespent : List (Utxo × TxId)
  topblock_rate_btc_kvb : ℚ
  tx_cache_max_byte_size : ℚ
deriving DecidableEq, Repr

/-- Lines 269-270: admit the incoming raw tx to dummy_cache and add its
byte size to the running counter (the counter is bumped even when the
txid was already a key, exactly as the source does). -/
def dummyAdmit (s : EngineState) (txid : TxId) (raw_tx : RawTx) : EngineState :=
  { s with
    dummy_cache := insertA s.dummy_cache txid raw_tx,
    dummy_cache_size := s.dummy_cache_size + byte_size raw_tx }

/-- One iteration of the per-input loop of lines 274-303 for a single
prevout of the incoming transaction.  incoming_vin is add_tx_prevouts
(the source computes removed_prevouts from it at line 292).  none models
an uncaught KeyError: line 279 when utxo_cache points outside
cycled_tx_cache, line 291 when the doublespent entry points outside
dummy_cache. -/
def perInputStep (incoming_vin : List Utxo) (s : EngineState) (prevout : Utxo) :
    Option EngineState :=
  match lookupA s.utxos_being_doublespent prevout with
  | none =>
    match lookupA s.utxo_cache prevout with
    | none => some s
    | some cached_txid =>
      match lookupA s.cycled_tx_cache cached_txid with
      | none => none
      | some cached_tx =>
        some { s with
          cycled_tx_cache_size := s.cycled_tx_cache_size - byte_size cached_tx,
          cycled_tx_cache := eraseA s.cycled_tx_cache cached_txid,
          utxo_cache := eraseA s.utxo_cache prevout,
          cycled_input_set := cached_tx.vin.foldl removeSet s.cycled_input_set }
  | some removed_txid =>
    match lookupA s.utxo_cache prevout with
    | some _ =>
      some { s with utxos_being_doublespent := eraseA s.utxos_being_doublespent prevout }
    | none =>
      let cnt : ℤ := (lookupA s.utxo_cycled_count prevout).getD 0
      let s1 := { s with utxo_cycled_count :=
        (match lookupA s.utxo_cycled_count prevout with
          | some _ => s.utxo_cycled_count
          | none => insertA s.utxo_cycled_count prevout 0) }
      if cnt ≥ CYCLE_THRESH then
        match lookupA s1.dummy_cache removed_txid with
        | none => none
        | some removed_tx =>
          let removed_prevouts := incoming_vin
          let s2 :=
            if removed_prevouts.all fun q => decide (q ∉ s1.cycled_input_set) then
              { s1 with
                utxo_cache := insertA s1.utxo_cache prevout removed_txid,
                cycled_tx_cache := insertA s1.cycled_tx_cache removed_txid removed_tx,
                cycled_tx_cache_size := s1.cycled_tx_cache_size + byte_size removed_tx,
                cycled_input_set := removed_prevouts.foldl addSet s1.cycled_input_set }
            else s1
          some { s2 with utxos_being_doublespent := eraseA s2.utxos_being_doublespent prevout }
      else
        some { s1 with utxos_being_doublespent := eraseA s1.utxos_being_doublespent prevout }

/-- The full per-input loop of line 274, iterating over add_tx_prevouts. -/
def perInputLoop (incoming_vin : List Utxo) (s : EngineState) :
    List Utxo → Option EngineState
  | [] => some s
  | p :: rest =>
    match perInputStep incoming_vin s p with
    | none => none
    | some s1 => perInputLoop incoming_vin s1 rest

/-- The Top-to-Bottom loop of lines 306-319, iterating over the items of
utxos_being_doublespent: bump the cycle count of each remaining utxo,
and when it maps through utxo_cache to a key of cycled_tx_cache, call
sendrawtransaction with the cached hex (collected in the output list). -/
def tbLoop (items : List (Utxo × TxId)) (s : EngineState) (sends : List String) :
    EngineState × List String :=
  match items with
  | [] => (s, sends)
  | (u, _) :: rest =>
    let s1 := { s with utxo_cycled_count :=
      (insertA s.utxo_cycled_count u ((lookupA s.utxo_cycled_count u).getD 0 + 1)) }
    match lookupA s1.utxo_cache u with
    | some p =>
      match lookupA s1.cycled_tx_cache p with
      | some tx => tbLoop rest s1 (sends ++ [tx.hex])
      | none => tbLoop rest s1 sends
    | none => tbLoop rest s1 sends

/-- The Top-to-Bottom pass applied to the current doublespent table. -/
def topBottomPass (s : EngineState) : EngineState × List String :=
  tbLoop s.utxos_being_doublespent s []

/-- The A branch of lines 247-322.  entry and raw are the getmempoolentry
and getrawtransaction responses; raw is only consulted when the entry is
classified top-block.  The returned list records the sendrawtransaction
payloads; none models an uncaught exception. -/
def handleAdd (s : EngineState) (txid : TxId) (entry : Option MempoolEntry)
    (raw : Option RawTx) : Option (EngineState × List String) :=
  match entry with
  | none => some ({ s with utxos_being_doublespent := [] }, [])
  | some e =>
    if new_top_block e.ancestorFees e.ancestorSize s.topblock_rate_btc_kvb then
      match raw with
      | none => some ({ s with utxos_being_doublespent := [] }, [])
      | some raw_tx =>
        match perInputLoop raw_tx.vin (dummyAdmit s txid raw_tx) raw_tx.vin with
        | none => none
        | some s2 =>
          let out := topBottomPass s2
          some ({ out.1 with utxos_being_doublespent := [] }, out.2)
    else
      some ({ s with utxos_being_doublespent := [] }, [])

/-- The R branch of lines 324-335: when the removed txid is a key of
dummy_cache, record each of its prevouts as being doublespent by it. -/
def handleRemove (s : EngineState) (txid : TxId) : EngineState :=
  match lookupA s.dummy_cache txid with
  | none => s
  | some tx =>
    { s with utxos_being_doublespent :=
        tx.vin.foldl (fun d u => insertA d u txid) s.utxos_being_doublespent }

/-- The C and D branch of lines 337-350: wipe when over budget (note the
source does not clear cycled_input_set), then re-read the top-block rate.
feerate is the estimatesmartfee result; none models the uncaught
TypeError of line 350 when the RPC returned no result. -/
def handleBlock (s : EngineState) (feerate : Option ℚ) : Option EngineState :=
  let s1 :=
    if s.cycled_tx_cache_size > s.tx_cache_max_byte_size ∨
        s.dummy_cache_size ≥ s.tx_cache_max_byte_size then
      { s with
        dummy_cache := [], dummy_cache_size := 0,
        utxo_cache := [], utxo_cycled_count := [],
        utxos_being_doublespent := [],
        cycled_tx_cache := [], cycled_tx_cache_size := 0 }
    else s
  match feerate with
  | none => none
  | some r => some { s1 with topblock_rate_btc_kvb := r }

/-- One event of the notification stream, carrying the RPC responses the
loop would fetch while handling it. -/
inductive Event where
  | add (txid : TxId) (entry : Option MempoolEntry) (raw : Option RawTx)
  | remove (txid : TxId)
  | block (feerate : Option ℚ)
deriving DecidableEq, Repr

/-- One iteration of the while loop, returning the successor state and the
sendrawtransaction payloads, or none when an exception leaves the loop. -/
def step (s : EngineState) : Event → Option (EngineState × List String)
  | .add t e r => handleAdd s t e r
  | .remove t => some (handleRemove s t, [])
  | .block f => (handleBlock s f).map fun s1 => (s1, [])

/-- Run a list of events from a state, concatenating the send payloads;
none as soon as one event raises. -/
def runEvents (s : EngineState) : List Event → Option (EngineState × List String)
  | [] => some (s, [])
  | e :: rest =>
    match step s e with
    | none => none
    | some (s1, out) =>
      match runEvents s1 rest with
      | none => none
      | some (s2, out2) => some (s2, out ++ out2)

/-- Union of the input sets of all cached protected transactions, the
reference value that invariant I2 equates with cycled_input_set. -/
def inputsUnion (cache : List (TxId × RawTx)) : List Utxo :=
  cache.foldl (fun acc p => acc ++ p.2.vin) []

/-- Sum of byte_size over the values of a transaction cache, the reference
value that invariant I3 equates with the running byte counters. -/
def sumBytes (cache : List (TxId × RawTx)) : ℚ :=
  cache.foldl (fun acc p => acc + byte_size p.2) 0

/-- Initial engine state as set up by main with a budget of 0 MB, and a
startup top-block rate of 1 BTC/kvB. -/
def state0 : EngineState :=
  { cycled_tx_cache := [], cycled_tx_cache_size := 0, cycled_input_set := [],
    dummy_cache := [], dummy_cache_size := 0, utxo_cycled_count := [],
    utxo_cache := [], utxos_being_doublespent := [],
    topblock_rate_btc_kvb := 1, tx_cache_max_byte_size := 0 }

/-- A mempool entry classified top-block against a rate of 1 BTC/kvB:
1 BTC of ancestor fees over 1000 vbytes is exactly 1 BTC/kvB. -/
def entryTop : MempoolEntry := { ancestorFees := 1, ancestorSize := 1000 }

/-- A mempool entry far below a rate of 1 BTC/kvB. -/
def entryLow : MempoolEntry := { ancestorFees := 1, ancestorSize := 1000000 }

/-- Top-block transaction 100 spending u1 = (1,0) and u2 = (2,0); its ten
hex characters give it a byte size of 5. -/
def txR0 : RawTx := { hex := "aabbccddee", vin := [(1, 0), (2, 0)] }

/-- Auxiliary top-block transaction 101 spending the fresh u3 = (3,0). -/
def txRY : RawTx := { hex := "11", vin := [(3, 0)] }

/-- Top-block transaction 102 respending only u1. -/
def txRX : RawTx := { hex := "22", vin := [(1, 0)] }

/-- Top-block transaction 103 respending only u2. -/
def txRZ : RawTx := { hex := "33", vin := [(2, 0)] }

/-- Top-block transaction 104 respending u1 once it is cache-backed. -/
def txRW : RawTx := { hex := "44", vin := [(1, 0)] }

/-- Scenario S1 transaction tx_A: top-block, spending only u1. -/
def txA1 : RawTx := { hex := "aabbccddee", vin := [(1, 0)] }

/-- Event trace reaching a Top-to-Top admission: admit 100, remove it,
count a first cycle of u1 and u2 through the unrelated top-block add 101,
remove 100 again, then respend u1 top-block with 102, which admits
txid 100 into the protected cache. -/
def traceT4 : List Event :=
  [Event.add 100 (some entryTop) (some txR0),
   Event.remove 100,
   Event.add 101 (some entryTop) (some txRY),
   Event.remove 100,
   Event.add 102 (some entryTop) (some txRX)]

/-- traceT4 continued: remove 100 a third time and respend u2 top-block
with 103, producing a second utxo_cache entry for txid 100. -/
def traceT7 : List Event :=
  traceT4 ++ [Event.remove 100, Event.add 103 (some entryTop) (some txRZ)]

/-- traceT7 continued: a Bottom-to-Top respend of u1 evicts txid 100 while
utxo_cache still maps u2 to it. -/
def traceT8 : List Event :=
  traceT7 ++ [Event.add 104 (some entryTop) (some txRW)]

/-- Scenario S1 literally: add top-block tx_A (txid 100) spending u1,
remove it, then add the below-top tx_B (txid 105). -/
def traceS1 : List Event :=
  [Event.add 100 (some entryTop) (some txA1),
   Event.remove 100,
   Event.add 105 (some entryLow) none]

/-- A state with top-block transaction 5 in dummy_cache whose removal left
u1 and u2 pending in the doublespent table, used to exercise the
Top-to-Bottom pass on a top-block add that spends neither. -/
def sW : EngineState :=
  { state0 with
    dummy_cache := [(5, txR0)],
    utxos_being_doublespent := [((1, 0), 5), ((2, 0), 5)] }

theorem lookupA_insertA {α β : Type} [DecidableEq α] (d : List (α × β)) (k : α) (v : β)
    (u : α) : lookupA (insertA d k v) u = if u = k then some v else lookupA d u := by
  induction d with
  | nil =>
    by_cases h : u = k
    · subst h; simp [insertA, lookupA]
    · simp [insertA, lookupA, h, Ne.symm h]
  | cons hd rest ih =>
    obtain ⟨k0, v0⟩ := hd
    by_cases h0 : k0 = k
    · subst h0
      by_cases h : u = k0
      · subst h; simp [insertA, lookupA]
      · simp [insertA, lookupA, h, Ne.symm h]
    · by_cases h : k0 = u
      · subst h
        simp [insertA, lookupA, h0, Ne.symm h0]
      · simp [insertA, lookupA, h0, h, ih]

theorem lookupA_foldl_insertA {α β : Type} [DecidableEq α] (l : List α) (t : β)
    (d : List (α × β)) (u : α) :
    (u ∈ l → lookupA (l.foldl (fun d0 x => insertA d0 x t) d) u = some t) ∧
    (u ∉ l → lookupA (l.foldl (fun d0 x => insertA d0 x t) d) u = lookupA d u) := by
  induction l generalizing d with
  | nil => exact ⟨fun h => absurd h (by simp), fun _ => rfl⟩
  | cons a l ih =>
    simp only [List.foldl_cons]
    constructor
    · intro hm
      rcases List.mem_cons.mp hm with heq | hl
      · subst heq
        by_cases hl2 : u ∈ l
        · exact (ih _).1 hl2
        · rw [(ih _).2 hl2, lookupA_insertA]
          simp
      · exact (ih _).1 hl
    · intro hm
      have ha : u ≠ a := fun hc => hm (by simp [hc])
      have hl : u ∉ l := fun hc => hm (by simp [hc])
      rw [(ih _).2 hl, lookupA_insertA]
      simp [ha]

theorem tbLoop_utxo_cache (items : List (Utxo × TxId)) (s : EngineState)
    (sends : List String) : (tbLoop items s sends).1.utxo_cache = s.utxo_cache := by
  induction items generalizing s sends with
  | nil => rfl
  | cons hd rest ih =>
    obtain ⟨u, x⟩ := hd
    dsimp only [tbLoop]
    split
    · split
      · exact ih _ _
      · exact ih _ _
    · exact ih _ _

theorem tbLoop_cycled_cache (items : List (Utxo × TxId)) (s : EngineState)
    (sends : List String) : (tbLoop items s sends).1.cycled_tx_cache = s.cycled_tx_cache := by
  induction items generalizing s sends with
  | nil => rfl
  | cons hd rest ih =>
    obtain ⟨u, x⟩ := hd
    dsimp only [tbLoop]
    split
    · split
      · exact ih _ _
      · exact ih _ _
    · exact ih _ _

theorem tbLoop_sends_mono (items : List (Utxo × TxId)) (s : EngineState)
    (sends : List String) (a : String) (h : a ∈ sends) : a ∈ (tbLoop items s sends).2 := by
  induction items generalizing s sends with
  | nil => exact h
  | cons hd rest ih =>
    obtain ⟨u, x⟩ := hd
    dsimp only [tbLoop]
    split
    · split
      · exact ih _ _ (List.mem_append_left _ h)
      · exact ih _ _ h
    · exact ih _ _ h

theorem tbLoop_send_mem (items : List (Utxo × TxId)) (s : EngineState) (sends : List String)
    (u : Utxo) (x : TxId) (p : TxId) (tx : RawTx) (hm : (u, x) ∈ items)
    (h1 : lookupA s.utxo_cache u = some p) (h2 : lookupA s.cycled_tx_cache p = some tx) :
    tx.hex ∈ (tbLoop items s sends).2 := by
  induction items generalizing s sends with
  | nil => cases hm
  | cons hd rest ih =>
    obtain ⟨u0, x0⟩ := hd
    rcases List.mem_cons.mp hm with heq | hrest
    · obtain ⟨hu, hx⟩ := Prod.mk.injEq .. ▸ heq
      subst hu
      dsimp only [tbLoop]
      simp only [h1, h2]
      exact tbLoop_sends_mono _ _ _ _ (by simp)
    · dsimp only [tbLoop]
      split
      · split
        · exact ih _ _ hrest h1 h2
        · exact ih _ _ hrest h1 h2
      · exact ih _ _ hrest h1 h2

theorem tbLoop_count_not_mem (items : List (Utxo × TxId)) (s : EngineState)
    (sends : List String) (u : Utxo) (h : u ∉ items.map Prod.fst) :
    lookupA (tbLoop items s sends).1.utxo_cycled_count u = lookupA s.utxo_cycled_count u := by
  induction items generalizing s sends with
  | nil => rfl
  | cons hd rest ih =>
    obtain ⟨u0, x0⟩ := hd
    have hne : u ≠ u0 := by
      intro hc; exact h (by simp [hc])
    have hrest : u ∉ rest.map Prod.fst := by
      intro hc; exact h (by simp [hc])
    have hstep : ∀ sends0,
        lookupA (tbLoop rest ({ s with utxo_cycled_count :=
          (insertA s.utxo_cycled_count u0
            ((lookupA s.utxo_cycled_count u0).getD 0 + 1)) } : EngineState) sends0).1.utxo_cycled_count u =
          lookupA s.utxo_cycled_count u := by
      intro sends0
      rw [ih _ _ hrest]
      simp [lookupA_insertA, hne]
    dsimp only [tbLoop]
    split
    · split
      · exact hstep _
      · exact hstep _
    · exact hstep _

theorem tbLoop_count_mem (items : List (Utxo × TxId)) (s : EngineState) (sends : List String)
    (u : Utxo) (x : TxId) (hnd : (items.map Prod.fst).Nodup) (hm : (u, x) ∈ items) :
    lookupA (tbLoop items s sends).1.utxo_cycled_count u =
      some ((lookupA s.utxo_cycled_count u).getD 0 + 1) := by
  induction items generalizing s sends with
  | nil => cases hm
  | cons hd rest ih =>
    obtain ⟨u0, x0⟩ := hd
    rw [List.map_cons] at hnd
    have hnd2 := List.nodup_cons.mp hnd
    rcases List.mem_cons.mp hm with heq | hrest
    · obtain ⟨hu, hx⟩ := Prod.mk.injEq .. ▸ heq
      subst hu
      have hnotin : u ∉ rest.map Prod.fst := hnd2.1
      have hstep : ∀ sends0,
          lookupA (tbLoop rest ({ s with utxo_cycled_count :=
            (insertA s.utxo_cycled_count u
              ((lookupA s.utxo_cycled_count u).getD 0 + 1)) } : EngineState) sends0).1.utxo_cycled_count u =
            some ((lookupA s.utxo_cycled_count u).getD 0 + 1) := by
        intro sends0
        rw [tbLoop_count_not_mem _ _ _ _ hnotin]
        simp [lookupA_insertA]
      dsimp only [tbLoop]
      split
      · split
        · exact hstep _
        · exact hstep _
      · exact hstep _
    · have hne : u ≠ u0 := by
        intro hc
        have hmm : u ∈ rest.map Prod.fst := List.mem_map_of_mem Prod.fst hrest
        exact hnd2.1 (hc ▸ hmm)
      have hstep : ∀ sends0,
          lookupA (tbLoop rest ({ s with utxo_cycled_count :=
            (insertA s.utxo_cycled_count u0
              ((lookupA s.utxo_cycled_count u0).getD 0 + 1)) } : EngineState) sends0).1.utxo_cycled_count u =
            some ((lookupA s.utxo_cycled_count u).getD 0 + 1) := by
        intro sends0
        rw [ih _ _ hnd2.2 hrest]
        simp [lookupA_insertA, hne]
      dsimp only [tbLoop]
      split
      · split
        · exact hstep _
        · exact hstep _
      · exact hstep _


section ClaimTheorems

attribute [local semireducible] Rat.add Rat.mul Rat.inv Rat.sub

/-- Claim C1 (counterexample): scenario S1 refuted on the code.  After the
top-block add of tx_A (txid 100, spending u1), its removal, and the
below-top add of tx_B (txid 105), the cycle count of u1 is 0, not 1, and
sendrawtransaction was never called: the Top-to-Bottom step of lines
305-319 sits inside the new_top_block branch and does not run for a
below-top add. -/
theorem s1_below_top_add_does_not_cycle_or_resubmit :
    (runEvents state0 traceS1).map
      (fun p => ((lookupA p.1.utxo_cycled_count (1, 0)).getD 0, p.2)) =
      some (0, []) := by decide

/-- Claim C1 (amended): the Top-to-Bottom step runs only when the incoming
add is classified top-block and its raw-tx fetch succeeded.  A below-top
add merely clears utxos_being_doublespent and sends nothing.  For a
top-block add whose per-input loop yields s2, each UTXO still in
s2.utxos_being_doublespent has its utxo_cycled_count incremented by one,
and when it maps through utxo_cache to a key of cycled_tx_cache the
cached hex is among the sendrawtransaction payloads. -/
theorem top_bottom_pass_only_for_top_block_adds (s : EngineState) (t : TxId)
    (e : MempoolEntry) :
    (∀ rt : Option RawTx,
      new_top_block e.ancestorFees e.ancestorSize s.topblock_rate_btc_kvb = false →
      step s (Event.add t (some e) rt) =
        some ({ s with utxos_being_doublespent := [] }, [])) ∧
    (∀ (R : RawTx) (s2 : EngineState),
      new_top_block e.ancestorFees e.ancestorSize s.topblock_rate_btc_kvb = true →
      perInputLoop R.vin (dummyAdmit s t R) R.vin = some s2 →
      (s2.utxos_being_doublespent.map Prod.fst).Nodup →
      step s (Event.add t (some e) (some R)) =
        some ({ (topBottomPass s2).1 with utxos_being_doublespent := [] },
          (topBottomPass s2).2) ∧
      ∀ u rtid, (u, rtid) ∈ s2.utxos_being_doublespent →
        lookupA (topBottomPass s2).1.utxo_cycled_count u =
          some ((lookupA s2.utxo_cycled_count u).getD 0 + 1) ∧
        ∀ p tx, lookupA s2.utxo_cache u = some p →
          lookupA s2.cycled_tx_cache p = some tx →
          tx.hex ∈ (topBottomPass s2).2) := by
  constructor
  · intro rt h
    simp [step, handleAdd, h]
  · intro R s2 htop hloop hnd
    constructor
    · simp [step, handleAdd, htop, hloop]
    · intro u rtid hm
      refine ⟨?_, ?_⟩
      · exact tbLoop_count_mem s2.utxos_being_doublespent s2 [] u rtid hnd hm
      · intro p tx h1 h2
        exact tbLoop_send_mem s2.utxos_being_doublespent s2 [] u rtid p tx hm h1 h2

/-- Claim C1 (witness): the amended theorem instantiated on a top-block add
of txid 7 spending the fresh u3 while u1 and u2 are pending as
doublespent: u1's count is incremented by the pass. -/
theorem top_bottom_pass_only_for_top_block_adds_witness :
    new_top_block entryTop.ancestorFees entryTop.ancestorSize
      sW.topblock_rate_btc_kvb = true ∧
    perInputLoop txRY.vin (dummyAdmit sW 7 txRY) txRY.vin =
      some (dummyAdmit sW 7 txRY) ∧
    ((dummyAdmit sW 7 txRY).utxos_being_doublespent.map Prod.fst).Nodup ∧
    lookupA (topBottomPass (dummyAdmit sW 7 txRY)).1.utxo_cycled_count (1, 0) =
      some ((lookupA (dummyAdmit sW 7 txRY).utxo_cycled_count (1, 0)).getD 0 + 1) := by
  refine ⟨by decide, by decide, by decide, ?_⟩
  exact (((top_bottom_pass_only_for_top_block_adds sW 7 entryTop).2 txRY
    (dummyAdmit sW 7 txRY) (by decide) (by decide) (by decide)).2 (1, 0) 5 (by decide)).1

/-- Claim C2: on a block-tip event over budget the code clears the two
transaction caches, utxo_cache, utxo_cycled_count, utxos_being_doublespent
and both byte counters, but cycled_input_set (missing from lines 343-349)
keeps its contents: after traceT4 it still holds u1. -/
theorem budget_wipe_does_not_clear_cycled_input_set :
    (runEvents state0 (traceT4 ++ [Event.block (some 2)])).map
      (fun p => p.1.dummy_cache) = some [] ∧
    (runEvents state0 (traceT4 ++ [Event.block (some 2)])).map
      (fun p => p.1.cycled_tx_cache) = some [] ∧
    (runEvents state0 (traceT4 ++ [Event.block (some 2)])).map
      (fun p => p.1.utxo_cache) = some [] ∧
    (runEvents state0 (traceT4 ++ [Event.block (some 2)])).map
      (fun p => p.1.utxo_cycled_count) = some [] ∧
    (runEvents state0 (traceT4 ++ [Event.block (some 2)])).map
      (fun p => p.1.utxos_being_doublespent) = some [] ∧
    (runEvents state0 (traceT4 ++ [Event.block (some 2)])).map
      (fun p => (p.1.dummy_cache_size, p.1.cycled_tx_cache_size)) = some (0, 0) ∧
    (runEvents state0 (traceT4 ++ [Event.block (some 2)])).map
      (fun p => p.1.cycled_input_set) = some [(1, 0)] := by
  refine ⟨by decide, by decide, by decide, by decide, by decide, by decide, by decide⟩

/-- Claim C3: after the Top-to-Top admission of traceT4 the protected
transaction 100 spends u1 and u2, yet cycled_input_set received exactly
the vin of the incoming transaction 102 (line 292 builds removed_prevouts
from raw_tx.vin, not from the removed transaction). -/
theorem admission_uses_incoming_tx_inputs :
    (runEvents state0 traceT4).map
      (fun p => (lookupA p.1.cycled_tx_cache 100, p.1.cycled_input_set)) =
      some (some txR0, txRX.vin) ∧
    txR0.vin = [(1, 0), (2, 0)] ∧ txRX.vin = [(1, 0)] := by decide

/-- Claim C4: invariant I2 fails on the code.  After traceT4, u2 is spent
by a transaction of the protected cycled_tx_cache but is absent from
cycled_input_set. -/
theorem cycled_input_set_violates_union_invariant :
    (runEvents state0 traceT4).map
      (fun p => (decide ((2, 0) ∈ inputsUnion p.1.cycled_tx_cache),
        decide ((2, 0) ∈ p.1.cycled_input_set))) = some (true, false) := by decide

/-- Claim C5: invariant I3 fails on the code.  Two adds of the same
top-block txid bump dummy_cache_size twice (lines 269-270) while the dict
keeps a single entry: the counter reads 10 but the recomputed sum is 5. -/
theorem duplicate_add_double_counts_dummy_bytes :
    (runEvents state0
      [Event.add 100 (some entryTop) (some txR0),
       Event.add 100 (some entryTop) (some txR0)]).map
      (fun p => (p.1.dummy_cache_size, sumBytes p.1.dummy_cache)) = some (10, 5) := by decide

/-- Claim C6: invariant I1 fails on the code.  traceT8 makes utxo_cache
map both u1 and u2 to txid 100 and then evicts 100 through u1
(lines 277-285), leaving utxo_cache mapping u2 to a txid that is no
longer a key of cycled_tx_cache. -/
theorem eviction_leaves_dangling_utxo_cache_entry :
    (runEvents state0 traceT8).map
      (fun p => (lookupA p.1.utxo_cache (2, 0), lookupA p.1.cycled_tx_cache 100)) =
      some (some 100, none) := by decide

/-- Claim C7: a block-tip event whose estimatesmartfee call yields no
result raises out of the loop (line 350 subscripts the None result), from
any state: the loop does not continue with the next event. -/
theorem block_tip_rpc_failure_crashes_loop :
    (∀ s : EngineState, step s (Event.block none) = none) ∧
    runEvents state0 [Event.block none] = none := by
  exact ⟨fun s => rfl, rfl⟩

/-- Claim C8: an add whose getmempoolentry returns null, and a top-block
add whose getrawtransaction fails, both clear utxos_being_doublespent and
change nothing else, with no sendrawtransaction call. -/
theorem fetch_failures_only_clear_doublespent (s : EngineState) (t : TxId)
    (rt : Option RawTx) (e : MempoolEntry)
    (h : new_top_block e.ancestorFees e.ancestorSize s.topblock_rate_btc_kvb = true) :
    step s (Event.add t none rt) =
      some ({ s with utxos_being_doublespent := [] }, []) ∧
    step s (Event.add t (some e) none) =
      some ({ s with utxos_being_doublespent := [] }, []) := by
  exact ⟨rfl, by simp [step, handleAdd, h]⟩

/-- Claim C8 (witness): both failure paths evaluated at state0 with the
top-block entry. -/
theorem fetch_failures_only_clear_doublespent_witness :
    new_top_block entryTop.ancestorFees entryTop.ancestorSize
      state0.topblock_rate_btc_kvb = true ∧
    step state0 (Event.add 7 none none) =
      some ({ state0 with utxos_being_doublespent := [] }, []) ∧
    step state0 (Event.add 7 (some entryTop) none) =
      some ({ state0 with utxos_being_doublespent := [] }, []) := by
  have h := fetch_failures_only_clear_doublespent state0 7 none entryTop (by decide)
  exact ⟨by decide, h.1, h.2⟩

/-- Claim C9 (counterexample): with ancestor fees 105553116266499/2^60 BTC
(the exact value of a Python float), ancestor size 3 vB, and top-block
rate 4398046511104125/2^57 BTC/kvB (also exactly a float), the exact
rational feerate equals the threshold, so the spec classifier says true,
but the 28-digit Decimal division of line 257 rounds the quotient down
and the code classifies the transaction as below top block. -/
theorem classifier_differs_from_exact_rational_comparison :
    new_top_block ((105553116266499 : ℚ) / 2 ^ 60) 3
      ((4398046511104125 : ℚ) / 2 ^ 57) = false ∧
    spec_is_top_block ((105553116266499 : ℚ) / 2 ^ 60) 3
      ((4398046511104125 : ℚ) / 2 ^ 57) = true := by decide

/-- Claim C9 (amended): the classifier compares the Decimal-rounded value
roundSig 28 (fees / size) * 1000 against the rate; it agrees with the
exact-rational rule of the spec exactly when the quotient fees / size is
representable in 28 significant digits. -/
theorem classifier_agrees_on_representable_quotients (fees size rate : ℚ)
    (h : roundSig 28 (fees / size) = fees / size) :
    new_top_block fees size rate = spec_is_top_block fees size rate := by
  unfold new_top_block spec_is_top_block
  rw [h, div_mul_eq_mul_div]

/-- Claim C9 (witness): at fees 1, size 4, rate 1 the quotient 1/4 is
exactly representable and the two classifiers agree. -/
theorem classifier_agrees_on_representable_quotients_witness :
    roundSig 28 ((1 : ℚ) / 4) = (1 : ℚ) / 4 ∧
    new_top_block 1 4 1 = spec_is_top_block 1 4 1 :=
  ⟨by decide, classifier_agrees_on_representable_quotients 1 4 1 (by decide)⟩

/-- Claim C10: a remove event never raises and never sends; it can change
only utxos_being_doublespent, which afterwards maps u to the removed txid
when the removed txid is cached in dummy_cache and u is among its inputs,
and is otherwise unchanged pointwise; a remove of an uncached txid leaves
the state identical. -/
theorem remove_event_touches_only_doublespent (s : EngineState) (t : TxId) :
    step s (Event.remove t) = some (handleRemove s t, []) ∧
    handleRemove s t =
      { s with utxos_being_doublespent := (handleRemove s t).utxos_being_doublespent } ∧
    (∀ u : Utxo,
      lookupA (handleRemove s t).utxos_being_doublespent u =
        (match lookupA s.dummy_cache t with
          | some tx => if u ∈ tx.vin then some t else lookupA s.utxos_being_doublespent u
          | none => lookupA s.utxos_being_doublespent u)) ∧
    (lookupA s.dummy_cache t = none → handleRemove s t = s) := by
  cases hd : lookupA s.dummy_cache t with
  | none =>
    refine ⟨rfl, ?_, ?_, fun _ => by simp [handleRemove, hd]⟩
    · simp [handleRemove, hd]
    · intro u
      simp [handleRemove, hd]
  | some tx =>
    refine ⟨rfl, ?_, ?_, fun hc => by simp [hd] at hc⟩
    · simp [handleRemove, hd]
    · intro u
      simp only [handleRemove, hd]
      by_cases hm : u ∈ tx.vin
      · rw [if_pos hm]
        exact (lookupA_foldl_insertA tx.vin t s.utxos_being_doublespent u).1 hm
      · rw [if_neg hm]
        exact (lookupA_foldl_insertA tx.vin t s.utxos_being_doublespent u).2 hm

/-- Claim C10 (witness): removing cached txid 5 from sW records its input
u2 as doublespent by 5, and removing the uncached txid 7 from state0
changes nothing. -/
theorem remove_event_touches_only_doublespent_witness :
    step sW (Event.remove 5) = some (handleRemove sW 5, []) ∧
    lookupA (handleRemove sW 5).utxos_being_doublespent (2, 0) = some 5 ∧
    handleRemove state0 7 = state0 := by
  refine ⟨(remove_event_touches_only_doublespent sW 5).1, ?_, ?_⟩
  · rw [(remove_event_touches_only_doublespent sW 5).2.2.1 (2, 0)]
    decide
  · exact (remove_event_touches_only_doublespent state0 7).2.2.2 (by decide)

end ClaimTheorems
